import Mathlib

/-!
Verification of the odds-history exporter (`src/main.py`).

The Python source is shallowly embedded below: pure functions become Lean
functions, JSON dictionaries become structures whose fields are `Option`s
(a missing key read through `dict.get` is `none`), Python `float` prices
are modelled as `ℚ` (the program never does arithmetic on prices, it only
parses, stores and truth-tests them, so rationals are an exact model of
the observable behaviour), and `datetime` instants are modelled as an
integer number of seconds.
-/

namespace FootballOdds

/-- Characters that Python `str.strip()` removes (ASCII whitespace). -/
def isPySpace (c : Char) : Bool :=
  c = ' ' || c = '\t' || c = '\n' || c = '\r' || c = '\x0b' || c = '\x0c'

/-- Python `str.strip()` on ASCII data: drop leading and trailing whitespace. -/
def pyStrip (s : String) : String :=
  ⟨((s.toList.dropWhile isPySpace).reverse.dropWhile isPySpace).reverse⟩

/-- Python `str.lower()` on ASCII data. -/
def lowerStr (s : String) : String :=
  ⟨s.toList.map Char.toLower⟩

/-- Python `s.replace("Z", "+00:00")`: the pattern is a single character, so
the replacement acts independently on every character. -/
def replaceZ (s : String) : String :=
  ⟨s.toList.flatMap (fun c => if c = 'Z' then "+00:00".toList else [c])⟩

/-- Numeric value of a list of decimal digit characters. -/
def digitsVal (cs : List Char) : ℕ :=
  cs.foldl (fun n c => n * 10 + (c.toNat - 48)) 0

/-- Helper for `pyFloat?`: parse an unsigned decimal literal
(`digits`, `digits.`, `.digits` or `digits.digits`). -/
def parseUnsigned? (cs : List Char) : Option ℚ :=
  let intPart := cs.takeWhile Char.isDigit
  let rest := cs.dropWhile Char.isDigit
  match rest with
  | [] => if intPart = [] then none else some (digitsVal intPart : ℚ)
  | '.' :: frac =>
      if frac.all Char.isDigit && (intPart ≠ [] || frac ≠ []) then
        some ((digitsVal intPart : ℚ) + (digitsVal frac : ℚ) / (10 : ℚ) ^ frac.length)
      else none
  | _ => none

/-- Python `float(s)` restricted to plain signed decimal literals
(optionally surrounded by whitespace); strings outside this subset —
in particular the garbage price strings the selector must tolerate —
parse to `none`.  `float(x)` applied to a missing value raises, which the
source catches and turns into `None`; see `parseOdd`. -/
def pyFloat? (s : String) : Option ℚ :=
  match (pyStrip s).toList with
  | '+' :: cs => parseUnsigned? cs
  | '-' :: cs => (parseUnsigned? cs).map Neg.neg
  | cs => parseUnsigned? cs

/-- `float(val.get("odd"))` guarded by `try/except`: a missing price or an
unparsable price string becomes `none`, never `0`. -/
def parseOdd (o : Option String) : Option ℚ :=
  match o with
  | none => none
  | some s => pyFloat? s

/-- Proleptic-Gregorian leap year, as in Python `datetime`. -/
def isLeap (y : ℕ) : Bool :=
  (y % 4 = 0 && y % 100 ≠ 0) || y % 400 = 0

/-- Days in the months of a non-leap year before month `m` (1-based). -/
def cumDays (m : ℕ) : ℕ :=
  [0, 0, 31, 59, 90, 120, 151, 181, 212, 243, 273, 304, 334].getD m 0

/-- Length of month `m` of year `y`. -/
def monthLen (y m : ℕ) : ℕ :=
  if m = 2 then (if isLeap y then 29 else 28)
  else [0, 31, 28, 31, 30, 31, 30, 31, 31, 30, 31, 30, 31].getD m 0

/-- Days in all years before year `y` (year 1 is the first year), as in
CPython `datetime._days_before_year`. -/
def daysBeforeYear (y : ℕ) : ℕ :=
  365 * (y - 1) + (y - 1) / 4 + (y - 1) / 400 - (y - 1) / 100

/-- Days in the months of year `y` before month `m`. -/
def daysBeforeMonth (y m : ℕ) : ℕ :=
  cumDays m + (if 2 < m && isLeap y then 1 else 0)

/-- Two decimal digit characters to a number. -/
def dd (a b : Char) : ℕ :=
  (a.toNat - 48) * 10 + (b.toNat - 48)

/-- Python `datetime.fromisoformat` restricted to the aware format
`YYYY-MM-DDTHH:MM:SS±HH:MM` (which is the format of the API's timestamps
after the source's `replace("Z", "+00:00")`), returned as the absolute
instant in seconds counted from the start of year 1 UTC.  Strings outside
the subset parse to `none`; in the source an unparsable bookmaker
timestamp is caught and skipped, so `none` is the faithful image. -/
def parseIso? (s : String) : Option ℤ :=
  match s.toList with
  | [y1, y2, y3, y4, '-', m1, m2, '-', d1, d2, 'T',
     h1, h2, ':', n1, n2, ':', s1, s2, sg, o1, o2, ':', p1, p2] =>
    if (y1.isDigit && y2.isDigit && y3.isDigit && y4.isDigit &&
        m1.isDigit && m2.isDigit && d1.isDigit && d2.isDigit &&
        h1.isDigit && h2.isDigit && n1.isDigit && n2.isDigit &&
        s1.isDigit && s2.isDigit && o1.isDigit && o2.isDigit &&
        p1.isDigit && p2.isDigit && (sg = '+' || sg = '-')) then
      let y := dd y1 y2 * 100 + dd y3 y4
      let mo := dd m1 m2
      let d := dd d1 d2
      let h := dd h1 h2
      let mi := dd n1 n2
      let se := dd s1 s2
      let oh := dd o1 o2
      let om := dd p1 p2
      if (1 ≤ y && 1 ≤ mo && mo ≤ 12 && 1 ≤ d && d ≤ monthLen y mo &&
          h ≤ 23 && mi ≤ 59 && se ≤ 59 && oh ≤ 23 && om ≤ 59) then
        let ordinal := daysBeforeYear y + daysBeforeMonth y mo + d
        let naive : ℤ := (ordinal * 86400 + h * 3600 + mi * 60 + se : ℕ)
        let off : ℤ := (oh * 3600 + om * 60 : ℕ)
        some (if sg = '+' then naive - off else naive + off)
      else none
    else none
  | _ => none

/-- An `(outcome label, price)` pair of a bet market
(`{"value": ..., "odd": ...}` in the API payload); either key may be
missing. -/
structure OddsValue where
  value : Option String
  odd : Option String
deriving DecidableEq

/-- A bet market of a bookmaker (`{"name": ..., "values": [...]}`). -/
structure Bet where
  name : Option String
  values : List OddsValue
deriving DecidableEq

/-- A bookmaker record: one update timestamp for the whole record plus a
list of bet markets. -/
structure Bookmaker where
  update : Option String
  bets : List Bet
deriving DecidableEq

/-- One fixture entry of the odds response (`{"bookmakers": [...]}`). -/
structure OddsFixtureEntry where
  bookmakers : List Bookmaker
deriving DecidableEq

/-- An odds response: the top-level `response` array. -/
structure OddsResp where
  response : List OddsFixtureEntry
deriving DecidableEq

/-- The Home / Draw / Away price triple; `none` is an absent price. -/
abbrev Triple := Option ℚ × Option ℚ × Option ℚ

/-- The all-absent triple. -/
def allNone : Triple := (none, none, none)

/-- A candidate record inside the selector's loop: the enclosing
bookmaker's update timestamp paired with one bet market. -/
abbrev RecB := Option String × Bet

/-- `bet.get("name", "").lower() in ("match winner", "1x2")`. -/
def marketMatch (b : Bet) : Bool :=
  lowerStr (b.name.getD ("")) = "match winner" || lowerStr (b.name.getD ("")) = "1x2"

/-- The normalised outcome label of a pair:
`(val.get("value") or "").strip().lower()`. -/
def labelOf (v : OddsValue) : String :=
  lowerStr (pyStrip (v.value.getD ("")))

/-- Is the pair's label one of the Home labels (`"home"` / `"1"`)? -/
def isHomeLabel (v : OddsValue) : Bool :=
  labelOf v = "home" || labelOf v = "1"

/-- Is the pair's label one of the Draw labels (`"draw"` / `"x"`)? -/
def isDrawLabel (v : OddsValue) : Bool :=
  labelOf v = "draw" || labelOf v = "x"

/-- Is the pair's label one of the Away labels (`"away"` / `"2"`)? -/
def isAwayLabel (v : OddsValue) : Bool :=
  labelOf v = "away" || labelOf v = "2"

/-- The body of the price-extraction loop: overwrite the component named
by the pair's label with the pair's parsed price, leave the state
unchanged on an unrecognised label. -/
def stepHDA (t : Triple) (val : OddsValue) : Triple :=
  if isHomeLabel val then (parseOdd val.odd, t.2.1, t.2.2)
  else if isDrawLabel val then (t.1, parseOdd val.odd, t.2.2)
  else if isAwayLabel val then (t.1, t.2.1, parseOdd val.odd)
  else t

/-- The `H = D = A = None; for val in bet.get("values", []): ...` loop of
`pick_prematch_1x2` (src/main.py lines 156-168). -/
def extractHDA (vals : List OddsValue) : Triple :=
  vals.foldl stepHDA (none, none, none)

/-- The last pair of the list whose label satisfies `p` (specification
side of the last-occurrence claim). -/
def lastMatch (p : OddsValue → Bool) : List OddsValue → Option OddsValue
  | [] => none
  | v :: vs =>
    match lastMatch p vs with
    | some w => some w
    | none => if p v then some v else none

/-- The parsed price of the last pair whose label satisfies `p`; `none`
when no pair matches (and also when the last matching pair's price string
is unparsable). -/
def lastOddOf (p : OddsValue → Bool) (vals : List OddsValue) : Option ℚ :=
  match lastMatch p vals with
  | none => none
  | some w => parseOdd w.odd

/-- Python truthiness of an optional price: `None` and `0` are falsy. -/
def truthy (o : Option ℚ) : Bool :=
  match o with
  | none => false
  | some q => decide (q ≠ 0)

/-- The `if H or D or A:` guard (line 169). -/
def truthyTriple (t : Triple) : Bool :=
  truthy t.1 || truthy t.2.1 || truthy t.2.2

/-- Parse a bookmaker's `update` field exactly as the source does
(lines 148-152): missing or unparsable gives `none`. -/
def updDT (u : Option String) : Option ℤ :=
  match u with
  | none => none
  | some s => parseIso? (replaceZ s)

/-- All `(bookmaker update, bet)` pairs of an odds response, in the
iteration order of the three nested `for` loops (lines 140-142). -/
def allBets (resp : List OddsFixtureEntry) : List RecB :=
  resp.flatMap (fun fx => fx.bookmakers.flatMap (fun bk => bk.bets.map (fun b => (bk.update, b))))

/-- The body of the selector's loop (lines 143-172): fold state is
`best_dt, best_triple` combined into one `Option`. -/
def step (kickoff : ℤ) (best : Option (ℤ × Triple)) (r : RecB) : Option (ℤ × Triple) :=
  if marketMatch r.2 then
    match updDT r.1 with
    | some udt =>
      if udt ≤ kickoff then
        let t := extractHDA r.2.values
        if truthyTriple t then
          match best with
          | none => some (udt, t)
          | some b => if b.1 < udt then some (udt, t) else some b
        else best
      else best
    | none => best
  else best

/-- `pick_prematch_1x2(odds_resp, kickoff_iso)` (src/main.py lines
128-173).  The result is `none` exactly when the Python function raises
(unparsable kickoff timestamp reached after a nonempty response);
otherwise `some` of the returned triple. -/
def pick_prematch_1x2 (odds_resp : OddsResp) (kickoff_iso : String) : Option Triple :=
  if odds_resp.response.isEmpty then some (none, none, none)
  else
    match parseIso? (replaceZ kickoff_iso) with
    | none => none
    | some kickoff =>
      some ((((allBets odds_resp.response).foldl (step kickoff) none).map Prod.snd).getD (none, none, none))

/-- A record qualifies (claim wording: match-winner market, parsable
update instant not after kickoff, not all prices absent/zero) exactly
when the loop body can promote it. -/
def qualifies (kickoff : ℤ) (r : RecB) : Bool :=
  marketMatch r.2 &&
    (match updDT r.1 with
     | some u => decide (u ≤ kickoff)
     | none => false) &&
    truthyTriple (extractHDA r.2.values)

/-- The update instant of a record (meaningful for qualifying records,
whose timestamp parses). -/
def recKey (r : RecB) : ℤ :=
  (updDT r.1).getD 0

/-- The timestamped triples of the qualifying records, in iteration
order. -/
def qualData (kickoff : ℤ) (l : List RecB) : List (ℤ × Triple) :=
  ((l.filter (qualifies kickoff)).map (fun r => (recKey r, extractHDA r.2.values)))

/-- The promotion step on qualifying data only. -/
def updBest (b : Option (ℤ × Triple)) (y : ℤ × Triple) : Option (ℤ × Triple) :=
  match b with
  | none => some y
  | some b => if b.1 < y.1 then some y else some b

/-- `foldBest` is the selector's loop restricted to qualifying data. -/
def foldBest (l : List (ℤ × Triple)) : Option (ℤ × Triple) :=
  l.foldl updBest none

/-! ### Team resolver (`find_team_id`, src/main.py lines 74-86) -/

/-- One entry of the `/teams` search response, flattened to the two
fields the resolver reads (`item.get("team", {}).get("name")` and
`...get("id")`). -/
structure TeamItem where
  name : Option String
  id : Option ℕ
deriving DecidableEq

/-- Does the candidate's name pass `if name and name.lower() == team_name.lower()`? -/
def exactNameMatch (team_name : String) (it : TeamItem) : Bool :=
  match it.name with
  | some n => n ≠ "" && lowerStr n = lowerStr team_name
  | none => false

/-- `find_team_id(team_name)` after the search call: the `results` list is
the response array.  Returns the id of the first exact case-insensitive
name match, else the first result's id, else `none` on an empty
response. -/
def find_team_id (results : List TeamItem) (team_name : String) : Option ℕ :=
  match results with
  | [] => none
  | first :: _ =>
    match results.find? (exactNameMatch team_name) with
    | some it => it.id
    | none => first.id

/-! ### Fixture lister (`list_fixtures`, src/main.py lines 88-104) -/

/-- A fixture entry, flattened to the fields the post-processing reads:
`f.get("league", {}).get("name", "")` and
`x.get("fixture", {}).get("date", "")`. -/
structure FixtureEntry where
  leagueName : Option String
  date : Option String
deriving DecidableEq

/-- `pat in hay` for character lists: contiguous-substring test. -/
def startsWithL : List Char → List Char → Bool
  | [], _ => true
  | _ :: _, [] => false
  | p :: ps, h :: hs => p = h && startsWithL ps hs

/-- Python `needle in hay` on strings (contiguous substring). -/
def containsSub : List Char → List Char → Bool
  | pat, [] => startsWithL pat []
  | pat, h :: hs => startsWithL pat (h :: hs) || containsSub pat hs

/-- Python `needle in hay` on strings. -/
def strIn (needle hay : String) : Bool :=
  containsSub needle.toList hay.toList

/-- Python truthiness of the optional league filter: `None` and `""` are
falsy. -/
def truthyStr (o : Option String) : Bool :=
  match o with
  | none => false
  | some s => s ≠ ""

/-- Sort key `x.get("fixture", {}).get("date", "")`. -/
def sortKey (f : FixtureEntry) : String :=
  f.date.getD ("")

/-- Stable insertion used to model Python `list.sort` (stable, ascending
by key): an element is placed before the first strictly greater key. -/
def insertByDate (f : FixtureEntry) : List FixtureEntry → List FixtureEntry
  | [] => [f]
  | g :: gs => if sortKey f < sortKey g then f :: g :: gs else g :: insertByDate f gs

/-- Python `fixtures.sort(key=...)` (stable, ascending by date string). -/
def sortByDate (l : List FixtureEntry) : List FixtureEntry :=
  l.foldr insertByDate []

/-- The post-processing of `list_fixtures` after the HTTP call (lines
98-104): optional case-insensitive substring filter on the league name,
then ascending sort by date string. -/
def list_fixtures_post (fixtures : List FixtureEntry) (league_name : Option String) : List FixtureEntry :=
  let fixtures :=
    if truthyStr league_name then
      fixtures.filter
        (fun f => strIn (lowerStr (league_name.getD (""))) (lowerStr (f.leagueName.getD (""))))
    else fixtures
  sortByDate fixtures

/-! ### HTTP retry policy (`api_get`, src/main.py lines 58-72) -/

/-- Outcome of one attempt of the body of `api_get`: a JSON value, an
`APIError` with its message (`"NO_API_KEY"`, `"RATE_LIMIT"` or
`"HTTP_<status>: <snippet>"`), or an exception of any other type
(network error, JSON decode error). -/
inductive Attempt (α : Type) where
  | ok (a : α)
  | apiError (msg : String)
  | otherError (msg : String)
deriving DecidableEq

/-- `retry_if_exception_type(APIError)`: the decorator's retry predicate
is the exception's *type*, so every `APIError` is retried, whatever its
message. -/
def isAPIError {α : Type} : Attempt α → Bool
  | .apiError _ => true
  | _ => false

/-- The configuration of the `@retry` decorator on `api_get`. -/
structure RetryPolicy where
  stopAfterAttempts : ℕ
  waitMultiplier : ℚ
  waitMin : ℚ
  waitMax : ℚ

/-- `@retry(stop=stop_after_attempt(3), wait=wait_exponential(multiplier=1, min=1, max=8), retry=retry_if_exception_type(APIError))`. -/
def api_get_policy : RetryPolicy :=
  ⟨3, 1, 1, 8⟩

/-- Modelled from the spec: the retry driver of the `tenacity` library
(not part of this repository's sources) — run attempt `k`; with retries
remaining, re-run exactly when the retry predicate accepts the raised
outcome; return the final outcome together with the number of attempts
consumed. -/
def tenacityRun {α : Type} (retryOn : Attempt α → Bool) (att : ℕ → Attempt α) : ℕ → ℕ → ℕ × Attempt α
  | k, 0 => (k + 1, att k)
  | k, n + 1 => if retryOn (att k) then tenacityRun retryOn att (k + 1) n else (k + 1, att k)

/-- `api_get` as a function of the sequence of its attempt outcomes:
up to 3 attempts, retrying on every `APIError`. -/
def api_get_run {α : Type} (att : ℕ → Attempt α) : ℕ × Attempt α :=
  tenacityRun isAPIError att 0 (api_get_policy.stopAfterAttempts - 1)

/-! ### Row building (`build_dataframe`, src/main.py lines 180-237) -/

/-- The odds-fetching part of the fixture loop of `build_dataframe`
(lines 193-202), abstracted over the per-fixture odds fetch outcome
(`get_fixture_odds_1x2` is a network call; an `APIError` raised there is
`Except.error` of its message).  Returns the `(fixture, odds triple)`
rows in order, together with the warning log lines `(fixture, message)`
emitted for non-`NO_API_KEY` failures.  The boolean is the mutable
`fetch_odds` flag. -/
def buildRows {α : Type} (fetch : α → Except String Triple) : Bool → List α → List (α × Triple) × List (α × String)
  | _, [] => ([], [])
  | false, f :: fs =>
    let r := buildRows fetch false fs
    ((f, allNone) :: r.1, r.2)
  | true, f :: fs =>
    match fetch f with
    | .ok t =>
      let r := buildRows fetch true fs
      ((f, t) :: r.1, r.2)
    | .error e =>
      if e = "NO_API_KEY" then
        let r := buildRows fetch false fs
        ((f, allNone) :: r.1, r.2)
      else
        let r := buildRows fetch true fs
        ((f, allNone) :: r.1, (f, e) :: r.2)

/-! ### Summary sheet (`export_excel`, src/main.py lines 239-252) -/

/-- One export row, restricted to the two columns the summary reads. -/
structure ExportRow where
  outcome : Option String
  teamSide : Option String
deriving DecidableEq

/-- The one-row summary sheet: team, period string, match count, and the
optional wins/draws/losses block. -/
structure Summary where
  team : String
  period : String
  matchCount : ℕ
  wdl : Option (ℕ × ℕ × ℕ)
deriving DecidableEq

/-- `((df[...]==x) & (df[...]==y)).sum()`: pandas equality with a null
cell is false, so this is the count of rows satisfying the predicate. -/
def countRows (p : ExportRow → Bool) (rows : List ExportRow) : ℕ :=
  (rows.filter p).length

/-- The summary block of `export_excel` (lines 243-251).  The
wins/draws/losses guard `"Outcome" in df.columns and not
df["Outcome"].isna().all()` holds exactly when some row has a non-null
outcome (an empty frame has no columns at all). -/
def export_summary (rows : List ExportRow) (team_name date_from date_to : String) : Summary :=
  { team := team_name
    period := date_from ++ " → " ++ date_to
    matchCount := rows.length
    wdl :=
      if rows.any (fun r => r.outcome.isSome) then
        some
          (countRows (fun r => r.outcome = some ("H") && r.teamSide = some ("Home")) rows +
             countRows (fun r => r.outcome = some ("A") && r.teamSide = some ("Away")) rows,
           countRows (fun r => r.outcome = some ("D")) rows,
           countRows (fun r => r.outcome = some ("A") && r.teamSide = some ("Home")) rows +
             countRows (fun r => r.outcome = some ("H") && r.teamSide = some ("Away")) rows)
      else none }

/-! ### Helper lemmas about the selector's fold -/

theorem step_eq (kickoff : ℤ) (acc : Option (ℤ × Triple)) (r : RecB) :
    step kickoff acc r =
      if qualifies kickoff r then updBest acc (recKey r, extractHDA r.2.values) else acc := by
  rcases r with ⟨u, b⟩
  cases hm : marketMatch b with
  | false => simp [step, qualifies, hm]
  | true =>
    cases hu : updDT u with
    | none => simp [step, qualifies, hm, hu]
    | some udt =>
      by_cases hle : udt ≤ kickoff
      · by_cases ht : truthyTriple (extractHDA b.values)
        · cases acc <;> simp [step, qualifies, recKey, updBest, hm, hu, hle, ht]
        · simp [step, qualifies, hm, hu, hle, ht]
      · simp [step, qualifies, hm, hu, hle]

theorem foldl_step_eq (kickoff : ℤ) :
    ∀ (l : List RecB) (acc : Option (ℤ × Triple)),
      l.foldl (step kickoff) acc = (qualData kickoff l).foldl updBest acc := by
  intro l
  induction l with
  | nil => intro acc; simp [qualData]
  | cons r rs ih =>
    intro acc
    by_cases hq : qualifies kickoff r
    · simp [qualData, List.filter_cons, hq, step_eq, ih]
    · simp [qualData, List.filter_cons, hq, step_eq, ih]

theorem foldl_updBest_some :
    ∀ (l : List (ℤ × Triple)) (a : ℤ × Triple), ∃ r, l.foldl updBest (some a) = some r := by
  intro l
  induction l with
  | nil => intro a; exact ⟨a, rfl⟩
  | cons y ys ih =>
    intro a
    by_cases h : a.1 < y.1
    · simp only [List.foldl_cons, updBest, if_pos h]
      exact ih y
    · simp only [List.foldl_cons, updBest, if_neg h]
      exact ih a

theorem foldl_updBest_spec :
    ∀ (l : List (ℤ × Triple)) (a r : ℤ × Triple),
      l.foldl updBest (some a) = some r →
      (r = a ∨ r ∈ l) ∧ a.1 ≤ r.1 ∧ ∀ y ∈ l, y.1 ≤ r.1 := by
  intro l
  induction l with
  | nil =>
    intro a r h
    simp at h
    simp [h]
  | cons y ys ih =>
    intro a r h
    by_cases hy : a.1 < y.1
    · simp only [List.foldl_cons, updBest, if_pos hy] at h
      rcases ih y r h with ⟨hmem, hle, hall⟩
      refine ⟨?_, ?_, ?_⟩
      · rcases hmem with rfl | hmem
        · exact Or.inr (List.mem_cons_self _ _)
        · exact Or.inr (List.mem_cons_of_mem _ hmem)
      · exact le_trans (le_of_lt hy) hle
      · intro z hz
        rcases List.mem_cons.mp hz with rfl | hz
        · exact hle
        · exact hall z hz
    · simp only [List.foldl_cons, updBest, if_neg hy] at h
      rcases ih a r h with ⟨hmem, hle, hall⟩
      refine ⟨?_, hle, ?_⟩
      · rcases hmem with rfl | hmem
        · exact Or.inl rfl
        · exact Or.inr (List.mem_cons_of_mem _ hmem)
      · intro z hz
        rcases List.mem_cons.mp hz with rfl | hz
        · exact le_trans (le_of_not_lt hy) hle
        · exact hall z hz

theorem foldl_updBest_stay :
    ∀ (l : List (ℤ × Triple)) (a : ℤ × Triple),
      (∀ y ∈ l, y.1 ≤ a.1) → l.foldl updBest (some a) = some a := by
  intro l
  induction l with
  | nil => intro a _; rfl
  | cons y ys ih =>
    intro a h
    have hy : ¬ a.1 < y.1 := not_lt.mpr (h y (List.mem_cons_self _ _))
    simp only [List.foldl_cons, updBest, if_neg hy]
    exact ih a (fun z hz => h z (List.mem_cons_of_mem _ hz))

theorem foldl_updBest_none_cases (l : List (ℤ × Triple)) :
    l.foldl updBest none = none ∨
      ∃ b, l.foldl updBest none = some b ∧ b ∈ l := by
  cases l with
  | nil => exact Or.inl rfl
  | cons x xs =>
    rcases foldl_updBest_some xs x with ⟨b, hb⟩
    refine Or.inr ⟨b, ?_, ?_⟩
    · simpa [updBest] using hb
    · rcases (foldl_updBest_spec xs x b hb).1 with rfl | h
      · exact List.mem_cons_self _ _
      · exact List.mem_cons_of_mem _ h

theorem foldBest_first_max (l₁ l₂ : List (ℤ × Triple)) (r : ℤ × Triple)
    (h1 : ∀ y ∈ l₁, y.1 < r.1) (h2 : ∀ y ∈ l₂, y.1 ≤ r.1) :
    foldBest (l₁ ++ r :: l₂) = some r := by
  unfold foldBest
  rw [List.foldl_append]
  rcases foldl_updBest_none_cases l₁ with h | ⟨b, hb, hbmem⟩
  · rw [h]
    simp only [List.foldl_cons, updBest]
    exact foldl_updBest_stay l₂ r h2
  · rw [hb]
    have hlt : b.1 < r.1 := h1 b hbmem
    simp only [List.foldl_cons, updBest, if_pos hlt]
    exact foldl_updBest_stay l₂ r h2

theorem pick_eq_foldBest (resp : OddsResp) (kickoff_iso : String) (kickoff : ℤ)
    (hk : parseIso? (replaceZ kickoff_iso) = some kickoff) :
    pick_prematch_1x2 resp kickoff_iso =
      some (((foldBest (qualData kickoff (allBets resp.response))).map Prod.snd).getD allNone) := by
  unfold pick_prematch_1x2
  by_cases he : resp.response.isEmpty
  · rw [if_pos he]
    rw [List.isEmpty_iff.mp he]
    rfl
  · simp only [if_neg he, hk]
    rw [foldl_step_eq]
    rfl

/-! ### Helper lemmas about the price extraction -/

theorem home_label_cases (v : OddsValue) (h : isHomeLabel v = true) :
    labelOf v = "home" ∨ labelOf v = "1" := by
  simpa [isHomeLabel] using h

theorem draw_label_cases (v : OddsValue) (h : isDrawLabel v = true) :
    labelOf v = "draw" ∨ labelOf v = "x" := by
  simpa [isDrawLabel] using h

theorem home_not_draw (v : OddsValue) (h : isHomeLabel v = true) : isDrawLabel v = false := by
  rcases home_label_cases v h with hl | hl <;> simp [isDrawLabel, hl]

theorem home_not_away (v : OddsValue) (h : isHomeLabel v = true) : isAwayLabel v = false := by
  rcases home_label_cases v h with hl | hl <;> simp [isAwayLabel, hl]

theorem draw_not_away (v : OddsValue) (h : isDrawLabel v = true) : isAwayLabel v = false := by
  rcases draw_label_cases v h with hl | hl <;> simp [isAwayLabel, hl]

theorem foldl_stepHDA_spec :
    ∀ (vals : List OddsValue) (t : Triple),
      vals.foldl stepHDA t =
        ((lastMatch isHomeLabel vals).elim t.1 (fun w => parseOdd w.odd),
         (lastMatch isDrawLabel vals).elim t.2.1 (fun w => parseOdd w.odd),
         (lastMatch isAwayLabel vals).elim t.2.2 (fun w => parseOdd w.odd)) := by
  intro vals
  induction vals with
  | nil => intro t; rfl
  | cons v vs ih =>
    intro t
    rw [List.foldl_cons, ih]
    cases hH : isHomeLabel v
    · cases hD : isDrawLabel v
      · cases hA : isAwayLabel v
        · simp only [stepHDA, hH, hD, hA, if_false, Bool.false_eq_true, lastMatch]
          cases lastMatch isHomeLabel vs <;> cases lastMatch isDrawLabel vs <;>
            cases lastMatch isAwayLabel vs <;> simp [hH, hD, hA]
        · simp only [stepHDA, hH, hD, hA, if_true, Bool.false_eq_true, if_false, lastMatch]
          cases lastMatch isHomeLabel vs <;> cases lastMatch isDrawLabel vs <;>
            cases lastMatch isAwayLabel vs <;> simp [hH, hD, hA]
      · have hA := draw_not_away v hD
        simp only [stepHDA, hH, hD, hA, if_true, Bool.false_eq_true, if_false, lastMatch]
        cases lastMatch isHomeLabel vs <;> cases lastMatch isDrawLabel vs <;>
          cases lastMatch isAwayLabel vs <;> simp [hH, hD, hA]
    · have hD := home_not_draw v hH
      have hA := home_not_away v hH
      simp only [stepHDA, hH, hD, hA, if_true, Bool.false_eq_true, if_false, lastMatch]
      cases lastMatch isHomeLabel vs <;> cases lastMatch isDrawLabel vs <;>
        cases lastMatch isAwayLabel vs <;> simp [hH, hD, hA]

theorem lastMatch_eq_filter_getLast (p : OddsValue → Bool) :
    ∀ vals : List OddsValue, lastMatch p vals = (vals.filter p).getLast? := by
  intro vals
  induction vals with
  | nil => rfl
  | cons v vs ih =>
    rw [List.filter_cons]
    have hun : lastMatch p (v :: vs) =
        match lastMatch p vs with
        | some w => some w
        | none => if p v then some v else none := rfl
    rw [hun, ih]
    cases hp : p v
    · simp only [Bool.false_eq_true, if_false]
      cases hf : vs.filter p with
      | nil => simp
      | cons w ws =>
        cases hg : (w :: ws).getLast? with
        | none => simp at hg
        | some z => simp [hg]
    · simp only [if_true]
      cases hf : vs.filter p with
      | nil => simp
      | cons w ws =>
        rw [List.getLast?_cons_cons]
        cases hg : (w :: ws).getLast? with
        | none => simp at hg
        | some z => simp [hg]

/-- A price that Python's `if H or D or A:` treats as missing: absent, or
present but exactly `0` (zero is falsy). -/
def absentOrZero (o : Option ℚ) : Prop :=
  o = none ∨ o = some 0

instance (o : Option ℚ) : Decidable (absentOrZero o) := by
  unfold absentOrZero
  infer_instance

theorem truthy_eq_false_iff (o : Option ℚ) : truthy o = false ↔ absentOrZero o := by
  cases o with
  | none => simp [truthy, absentOrZero]
  | some q =>
    simp only [truthy, absentOrZero, decide_not, Bool.not_eq_false', decide_eq_true_eq]
    constructor
    · intro h; exact Or.inr (by rw [h])
    · rintro (h | h)
      · cases h
      · exact Option.some_injective _ h

/-- Shared helper: when no record qualifies, the selector returns the
all-absent triple. -/
theorem pick_of_no_qualifying (resp : OddsResp) (kickoff_iso : String) (kickoff : ℤ)
    (hk : parseIso? (replaceZ kickoff_iso) = some kickoff)
    (hall : ∀ r ∈ allBets resp.response, qualifies kickoff r = false) :
    pick_prematch_1x2 resp kickoff_iso = some (none, none, none) := by
  rw [pick_eq_foldBest resp kickoff_iso kickoff hk]
  have hfil : (allBets resp.response).filter (qualifies kickoff) = [] := by
    rw [List.filter_eq_nil_iff]
    intro a ha
    simp [hall a ha]
  unfold qualData
  rw [hfil]
  rfl

theorem lastMatch_mem (p : OddsValue → Bool) :
    ∀ (vals : List OddsValue) (w : OddsValue), lastMatch p vals = some w → w ∈ vals := by
  intro vals
  induction vals with
  | nil => intro w h; cases h
  | cons v vs ih =>
    intro w h
    have hun : lastMatch p (v :: vs) =
        match lastMatch p vs with
        | some w => some w
        | none => if p v then some v else none := rfl
    rw [hun] at h
    cases hl : lastMatch p vs with
    | some z =>
      rw [hl] at h
      cases h
      exact List.mem_cons_of_mem _ (ih _ hl)
    | none =>
      rw [hl] at h
      by_cases hp : p v
      · rw [if_pos hp] at h
        cases h
        exact List.mem_cons_self _ _
      · rw [if_neg hp] at h
        cases h

/-- **C1.** For every odds response and kickoff instant, among the
qualifying records (match-winner market, parsable update instant not
after kickoff, not all prices absent), `pick_prematch_1x2` returns the
triple of a qualifying record whose update instant is at least that of
every other qualifying record — the record with the latest update
instant.  The witness instantiates the two-bookmaker situation `T1 < T2 ≤
kickoff` of the claim and checks that `T2`'s triple is returned. -/
theorem pick_selects_latest (resp : OddsResp) (kickoff_iso : String) (kickoff : ℤ)
    (hk : parseIso? (replaceZ kickoff_iso) = some kickoff)
    (r₀ : RecB) (h₀ : r₀ ∈ allBets resp.response) (hq₀ : qualifies kickoff r₀ = true) :
    ∃ r ∈ allBets resp.response,
      qualifies kickoff r = true ∧
      pick_prematch_1x2 resp kickoff_iso = some (extractHDA r.2.values) ∧
      ∀ r' ∈ allBets resp.response, qualifies kickoff r' = true → recKey r' ≤ recKey r := by
  have hq : (recKey r₀, extractHDA r₀.2.values) ∈ qualData kickoff (allBets resp.response) := by
    unfold qualData
    exact List.mem_map_of_mem _ (List.mem_filter.mpr ⟨h₀, hq₀⟩)
  rcases hql : qualData kickoff (allBets resp.response) with _ | ⟨y, ys⟩
  · rw [hql] at hq
    cases hq
  · have hb' : ∃ b, ys.foldl updBest (some y) = some b := foldl_updBest_some ys y
    rcases hb' with ⟨b, hb⟩
    rcases foldl_updBest_spec ys y b hb with ⟨hbm, hyb, hball⟩
    have hfold : foldBest (y :: ys) = some b := by
      unfold foldBest
      simpa [List.foldl_cons, updBest] using hb
    have hbq : b ∈ qualData kickoff (allBets resp.response) := by
      rw [hql]
      rcases hbm with rfl | h
      · exact List.mem_cons_self _ _
      · exact List.mem_cons_of_mem _ h
    unfold qualData at hbq
    rcases List.mem_map.mp hbq with ⟨r, hrf, hrb⟩
    rcases List.mem_filter.mp hrf with ⟨hrl, hrq⟩
    refine ⟨r, hrl, hrq, ?_, ?_⟩
    · rw [pick_eq_foldBest resp kickoff_iso kickoff hk, hql, hfold, ← hrb]
      rfl
    · intro r' hr' hq'
      have hmem' : (recKey r', extractHDA r'.2.values) ∈ qualData kickoff (allBets resp.response) := by
        unfold qualData
        exact List.mem_map_of_mem _ (List.mem_filter.mpr ⟨hr', hq'⟩)
      rw [hql] at hmem'
      have hle : recKey r' ≤ b.1 := by
        rcases List.mem_cons.mp hmem' with heq | h
        · have : recKey r' = y.1 := by rw [← heq]
          rw [this]
          exact hyb
        · exact hball _ h
      calc recKey r' ≤ b.1 := hle
        _ = recKey r := by rw [← hrb]

/-- **C2.** A bookmaker record whose update instant is strictly after
kickoff never qualifies, and if no record qualifies (in particular when
the only record present is post-kickoff) the result is the all-absent
triple; a record whose update instant equals kickoff exactly does
qualify (given the market matches and some price is truthy). -/
theorem pick_rejects_post_kickoff (resp : OddsResp) (kickoff_iso : String) (kickoff : ℤ)
    (hk : parseIso? (replaceZ kickoff_iso) = some kickoff) :
    (∀ r ∈ allBets resp.response, ∀ u : ℤ, updDT r.1 = some u → kickoff < u →
       qualifies kickoff r = false)
    ∧ ((∀ r ∈ allBets resp.response, qualifies kickoff r = false) →
       pick_prematch_1x2 resp kickoff_iso = some (none, none, none))
    ∧ (∀ r : RecB, updDT r.1 = some kickoff → marketMatch r.2 = true →
       truthyTriple (extractHDA r.2.values) = true → qualifies kickoff r = true) := by
  refine ⟨?_, ?_, ?_⟩
  · intro r _ u hu hlt
    have : ¬ (u ≤ kickoff) := not_le.mpr hlt
    simp [qualifies, hu, this]
  · intro hall
    exact pick_of_no_qualifying resp kickoff_iso kickoff hk hall
  · intro r hu hm ht
    simp [qualifies, hu, hm, ht]

/-- **C3.** Ties among qualifying records sharing the same latest update
instant are resolved by the strictly-greater-than comparison: the
first-seen record among those achieving the (weak) maximum — every
earlier qualifying record strictly below it, every later one not above
it — is the one whose triple is returned. -/
theorem pick_tie_break_first_seen (resp : OddsResp) (kickoff_iso : String) (kickoff : ℤ)
    (hk : parseIso? (replaceZ kickoff_iso) = some kickoff)
    (l₁ l₂ : List RecB) (r : RecB)
    (hsplit : (allBets resp.response).filter (qualifies kickoff) = l₁ ++ r :: l₂)
    (h1 : ∀ y ∈ l₁, recKey y < recKey r) (h2 : ∀ y ∈ l₂, recKey y ≤ recKey r) :
    pick_prematch_1x2 resp kickoff_iso = some (extractHDA r.2.values) := by
  rw [pick_eq_foldBest resp kickoff_iso kickoff hk]
  unfold qualData
  rw [hsplit, List.map_append, List.map_cons]
  rw [foldBest_first_max]
  · rfl
  · intro y hy
    rcases List.mem_map.mp hy with ⟨z, hz, rfl⟩
    exact h1 z hz
  · intro y hy
    rcases List.mem_map.mp hy with ⟨z, hz, rfl⟩
    exact h2 z hz

/-- **C4.** A record whose three extracted prices are all absent or
exactly zero is discarded (never qualifies, and with only such records
the result is all-absent, whatever the timestamps); a record passing the
market and timestamp checks with at least one nonzero extracted price
qualifies; price pairs that are missing or unparsable extract to absent,
never zero. -/
theorem record_discard_rule (kickoff : ℤ) (r : RecB) :
    ((absentOrZero (extractHDA r.2.values).1 ∧ absentOrZero (extractHDA r.2.values).2.1 ∧
        absentOrZero (extractHDA r.2.values).2.2) → qualifies kickoff r = false)
    ∧ (marketMatch r.2 = true → (∀ u : ℤ, updDT r.1 = some u → u ≤ kickoff) →
       (∃ u : ℤ, updDT r.1 = some u) →
       (∃ q : ℚ, q ≠ 0 ∧ ((extractHDA r.2.values).1 = some q ∨
          (extractHDA r.2.values).2.1 = some q ∨ (extractHDA r.2.values).2.2 = some q)) →
       qualifies kickoff r = true)
    ∧ (∀ (resp : OddsResp) (kickoff_iso : String),
        parseIso? (replaceZ kickoff_iso) = some kickoff →
        (∀ r' ∈ allBets resp.response,
          absentOrZero (extractHDA r'.2.values).1 ∧ absentOrZero (extractHDA r'.2.values).2.1 ∧
            absentOrZero (extractHDA r'.2.values).2.2) →
        pick_prematch_1x2 resp kickoff_iso = some (none, none, none))
    ∧ (∀ vals : List OddsValue, (∀ v ∈ vals, parseOdd v.odd = none) →
        extractHDA vals = (none, none, none)) := by
  have habs : ∀ t : Triple,
      (absentOrZero t.1 ∧ absentOrZero t.2.1 ∧ absentOrZero t.2.2) → truthyTriple t = false := by
    intro t ⟨h1, h2, h3⟩
    simp [truthyTriple, (truthy_eq_false_iff _).mpr h1, (truthy_eq_false_iff _).mpr h2,
      (truthy_eq_false_iff _).mpr h3]
  refine ⟨?_, ?_, ?_, ?_⟩
  · intro h
    simp [qualifies, habs _ h]
  · rintro hm hle ⟨u, hu⟩ ⟨q, hq0, hq⟩
    have ht : truthyTriple (extractHDA r.2.values) = true := by
      rcases hq with h | h | h <;> simp [truthyTriple, truthy, h, hq0]
    simp [qualifies, hm, hu, hle u hu, ht]
  · intro resp kickoff_iso hk hall
    refine pick_of_no_qualifying resp kickoff_iso kickoff hk ?_
    intro r' hr'
    simp [qualifies, habs _ (hall r' hr')]
  · intro vals hnone
    unfold extractHDA
    rw [foldl_stepHDA_spec]
    have hcomp : ∀ p : OddsValue → Bool,
        (lastMatch p vals).elim (none : Option ℚ) (fun w => parseOdd w.odd) = none := by
      intro p
      cases hl : lastMatch p vals with
      | none => rfl
      | some w => simpa using hnone w (lastMatch_mem p vals w hl)
    rw [hcomp, hcomp, hcomp]

/-- **C10.** Within one bet's outcome list, each component of the
extracted triple is the parsed price of the *last* pair (in list order)
carrying the corresponding recognised label — later occurrences of an
equal label overwrite earlier ones — and pairs with unrecognised labels
leave the triple unchanged; `lastMatch p` is, provably, the last element
of the list satisfying `p` (the last element of the filtered list). -/
theorem extract_last_occurrence_wins (vals : List OddsValue) :
    extractHDA vals =
      (lastOddOf isHomeLabel vals, lastOddOf isDrawLabel vals, lastOddOf isAwayLabel vals)
    ∧ ∀ p : OddsValue → Bool, lastMatch p vals = (vals.filter p).getLast? := by
  constructor
  · unfold extractHDA
    rw [foldl_stepHDA_spec]
    have hcomp : ∀ p : OddsValue → Bool,
        (lastMatch p vals).elim (none : Option ℚ) (fun w => parseOdd w.odd) = lastOddOf p vals := by
      intro p
      cases hl : lastMatch p vals <;> simp [lastOddOf, hl]
    rw [hcomp, hcomp, hcomp]
  · intro p
    exact lastMatch_eq_filter_getLast p vals

/-! ### Concrete witness data for the selector claims.
Instants: `0001-01-01T00:00:00+00:00` is 86400, `0001-01-02T00:00:00+00:00`
is 172800, `0001-01-02T06:30:00+00:00` is 196200, the kickoff
`0001-01-03T00:00:00Z` is 259200, `0001-01-04T00:00:00+00:00` is 345600. -/

def c1bet1 : Bet :=
  ⟨some ("Match Winner"),
   [⟨some ("Home"), some ("2")⟩, ⟨some ("Draw"), some ("3")⟩, ⟨some ("Away"), some ("4")⟩]⟩

def c1bet2 : Bet :=
  ⟨some ("1X2"),
   [⟨some ("1"), some ("5")⟩, ⟨some ("X"), some ("6")⟩, ⟨some ("2"), some ("7")⟩]⟩

def c1resp : OddsResp :=
  ⟨[⟨[⟨some ("0001-01-01T00:00:00+00:00"), [c1bet1]⟩,
      ⟨some ("0001-01-02T06:30:00+00:00"), [c1bet2]⟩]⟩]⟩

def c1rec : RecB := (some ("0001-01-02T06:30:00+00:00"), c1bet2)

theorem pick_selects_latest_witness :
    parseIso? (replaceZ ("0001-01-03T00:00:00Z")) = some 259200 ∧
    c1rec ∈ allBets c1resp.response ∧
    qualifies 259200 c1rec = true ∧
    (∃ r ∈ allBets c1resp.response,
      qualifies 259200 r = true ∧
      pick_prematch_1x2 c1resp ("0001-01-03T00:00:00Z") = some (extractHDA r.2.values) ∧
      ∀ r' ∈ allBets c1resp.response, qualifies 259200 r' = true → recKey r' ≤ recKey r) ∧
    pick_prematch_1x2 c1resp ("0001-01-03T00:00:00Z") =
      some (some 5, some 6, some 7) :=
  ⟨by decide, by decide, by decide,
   pick_selects_latest c1resp ("0001-01-03T00:00:00Z") 259200 (by decide) c1rec
     (by decide) (by decide),
   by decide⟩

def c2resp : OddsResp :=
  ⟨[⟨[⟨some ("0001-01-04T00:00:00+00:00"),
       [⟨some ("Match Winner"), [⟨some ("Home"), some ("2")⟩]⟩]⟩]⟩]⟩

def c2recEq : RecB := (some ("0001-01-03T00:00:00+00:00"), ⟨some ("Match Winner"), [⟨some ("Home"), some ("2")⟩]⟩)

theorem pick_rejects_post_kickoff_witness :
    parseIso? (replaceZ ("0001-01-03T00:00:00Z")) = some 259200 ∧
    (∀ r ∈ allBets c2resp.response, qualifies 259200 r = false) ∧
    pick_prematch_1x2 c2resp ("0001-01-03T00:00:00Z") = some (none, none, none) ∧
    updDT c2recEq.1 = some 259200 ∧
    qualifies 259200 c2recEq = true :=
  ⟨by decide, by decide,
   (pick_rejects_post_kickoff c2resp ("0001-01-03T00:00:00Z") 259200 (by decide)).2.1 (by decide),
   by decide,
   (pick_rejects_post_kickoff c2resp ("0001-01-03T00:00:00Z") 259200 (by decide)).2.2 c2recEq
     (by decide) (by decide) (by decide)⟩

def c3bet1 : Bet := ⟨some ("Match Winner"), [⟨some ("Home"), some ("2")⟩]⟩

def c3bet2 : Bet := ⟨some ("1x2"), [⟨some ("Home"), some ("9")⟩]⟩

def c3resp : OddsResp :=
  ⟨[⟨[⟨some ("0001-01-02T00:00:00+00:00"), [c3bet1]⟩,
      ⟨some ("0001-01-02T00:00:00+00:00"), [c3bet2]⟩]⟩]⟩

def c3rec1 : RecB := (some ("0001-01-02T00:00:00+00:00"), c3bet1)

def c3rec2 : RecB := (some ("0001-01-02T00:00:00+00:00"), c3bet2)

theorem pick_tie_break_first_seen_witness :
    parseIso? (replaceZ ("0001-01-03T00:00:00Z")) = some 259200 ∧
    (allBets c3resp.response).filter (qualifies 259200) = [] ++ c3rec1 :: [c3rec2] ∧
    recKey c3rec2 = recKey c3rec1 ∧
    pick_prematch_1x2 c3resp ("0001-01-03T00:00:00Z") = some (extractHDA c3rec1.2.values) ∧
    pick_prematch_1x2 c3resp ("0001-01-03T00:00:00Z") = some (some 2, none, none) :=
  ⟨by decide, by decide, by decide,
   pick_tie_break_first_seen c3resp ("0001-01-03T00:00:00Z") 259200 (by decide)
     [] [c3rec2] c3rec1 (by decide) (by decide) (by decide),
   by decide⟩

def c4recZ : RecB :=
  (some ("0001-01-01T00:00:00+00:00"),
   ⟨some ("Match Winner"),
    [⟨some ("Home"), some ("0")⟩, ⟨some ("Draw"), some ("junk")⟩, ⟨some ("Away"), none⟩]⟩)

def c4recOk : RecB :=
  (some ("0001-01-01T00:00:00+00:00"), ⟨some ("1x2"), [⟨some ("Home"), some ("2")⟩]⟩)

def c4resp : OddsResp := ⟨[⟨[⟨c4recZ.1, [c4recZ.2]⟩]⟩]⟩

theorem record_discard_rule_witness :
    (absentOrZero (extractHDA c4recZ.2.values).1 ∧ absentOrZero (extractHDA c4recZ.2.values).2.1 ∧
      absentOrZero (extractHDA c4recZ.2.values).2.2) ∧
    qualifies 259200 c4recZ = false ∧
    qualifies 259200 c4recOk = true ∧
    pick_prematch_1x2 c4resp ("0001-01-03T00:00:00Z") = some (none, none, none) ∧
    extractHDA [⟨some ("Home"), some ("junk")⟩, ⟨some ("Away"), none⟩] = (none, none, none) :=
  ⟨by decide,
   (record_discard_rule 259200 c4recZ).1 (by decide),
   (record_discard_rule 259200 c4recOk).2.1 (by decide)
     (by
       intro u hu
       have h86 : updDT c4recOk.1 = some 86400 := by decide
       rw [h86] at hu
       cases hu
       decide)
     ⟨86400, by decide⟩
     ⟨(2 : ℚ), by decide, Or.inl (by decide)⟩,
   (record_discard_rule 259200 c4recZ).2.2.1 c4resp ("0001-01-03T00:00:00Z") (by decide) (by decide),
   (record_discard_rule 259200 c4recZ).2.2.2 [⟨some ("Home"), some ("junk")⟩, ⟨some ("Away"), none⟩]
     (by decide)⟩

/-! ### C5: the retry policy of `api_get` -/

/-- **C5 (counterexample).** The claim states that `api_get` retries only
on the RateLimited failure (HTTP 429) and that a NoCredentials failure or
any other non-2xx HTTP failure is immediately fatal to the caller without
retry.  This is false on the code: the decorator retries on the exception
*type* `APIError`, and `NO_API_KEY` and `HTTP_<status>` failures are
raised as `APIError` too.  Concretely, a first attempt failing with an
`HTTP_500` error followed by a successful attempt returns the success on
attempt 2 instead of failing immediately. -/
theorem api_get_retry_only_rate_limited_counterexample :
    ¬ (∀ (att : ℕ → Attempt ℕ) (m : String), att 0 = Attempt.apiError m → m ≠ "RATE_LIMIT" →
        api_get_run att = (1, Attempt.apiError m)) := by
  intro h
  have h2 := h (fun k => if k = 0 then Attempt.apiError ("HTTP_500: oops") else Attempt.ok 7)
    ("HTTP_500: oops") rfl (by decide)
  have h3 : api_get_run (fun k => if k = 0 then Attempt.apiError ("HTTP_500: oops") else Attempt.ok 7) =
      (2, Attempt.ok 7) := by decide
  rw [h3] at h2
  exact absurd h2 (by decide)

/-- **C5 (amended).** `api_get` makes up to 3 attempts, with the
exponential backoff configured as multiplier 1, minimum 1 unit, maximum 8
units, and it retries on *every* `APIError` — RateLimited, NoCredentials
and other non-2xx HTTP failures alike; only an exception that is not an
`APIError` is immediately fatal, and after the third failed attempt the
final failure surfaces to the caller. -/
theorem api_get_retry_behaviour :
    (∀ (α : Type) (att : ℕ → Attempt α),
      api_get_run att =
        if isAPIError (att 0) then
          (if isAPIError (att 1) then (3, att 2) else (2, att 1))
        else (1, att 0))
    ∧ api_get_policy.stopAfterAttempts = 3 ∧ api_get_policy.waitMultiplier = 1
    ∧ api_get_policy.waitMin = 1 ∧ api_get_policy.waitMax = 8 := by
  refine ⟨?_, rfl, rfl, rfl, rfl⟩
  intro α att
  have e2 : tenacityRun isAPIError att 0 2 =
      if isAPIError (att 0) then tenacityRun isAPIError att 1 1 else (1, att 0) := rfl
  have e1 : tenacityRun isAPIError att 1 1 =
      if isAPIError (att 1) then tenacityRun isAPIError att 2 0 else (2, att 1) := rfl
  have e0 : tenacityRun isAPIError att 2 0 = (3, att 2) := rfl
  show tenacityRun isAPIError att 0 2 = _
  rw [e2, e1, e0]

/-! ### C6: odds-fetch failure isolation in `build_dataframe` -/

/-- **C6.** In the fixture loop: once odds fetching is disabled every
remaining fixture still gets a row, with absent odds and no warning
(the no-odds path); a `NO_API_KEY` failure on a fixture gives that
fixture absent odds and disables fetching for all subsequent fixtures;
any other odds-fetch error is logged as a warning, gives that fixture
absent odds, and the run continues to the next fixture with fetching
still enabled. -/
theorem build_rows_error_paths {α : Type} (fetch : α → Except String Triple) (f : α) (fs : List α) :
    (∀ gs : List α, buildRows fetch false gs = (gs.map (fun g => (g, allNone)), []))
    ∧ (fetch f = Except.error ("NO_API_KEY") →
        buildRows fetch true (f :: fs) = ((f, allNone) :: fs.map (fun g => (g, allNone)), []))
    ∧ (∀ e : String, fetch f = Except.error e → e ≠ "NO_API_KEY" →
        buildRows fetch true (f :: fs) =
          ((f, allNone) :: (buildRows fetch true fs).1, (f, e) :: (buildRows fetch true fs).2))
    ∧ (∀ t : Triple, fetch f = Except.ok t →
        buildRows fetch true (f :: fs) =
          ((f, t) :: (buildRows fetch true fs).1, (buildRows fetch true fs).2)) := by
  have hdis : ∀ gs : List α, buildRows fetch false gs = (gs.map (fun g => (g, allNone)), []) := by
    intro gs
    induction gs with
    | nil => rfl
    | cons g gs ih => simp [buildRows, ih]
  refine ⟨hdis, ?_, ?_, ?_⟩
  · intro h
    simp [buildRows, h, hdis]
  · intro e h hne
    simp [buildRows, h, hne]
  · intro t h
    simp [buildRows, h]

def c6fetch : ℕ → Except String Triple := fun n =>
  if n = 0 then Except.error ("HTTP_404: not found")
  else if n = 1 then Except.error ("NO_API_KEY")
  else Except.ok (some 2, some 3, some 4)

theorem build_rows_error_paths_witness :
    c6fetch 0 = Except.error ("HTTP_404: not found") ∧
    c6fetch 1 = Except.error ("NO_API_KEY") ∧
    buildRows c6fetch true [1, 2, 3] = (((1 : ℕ), allNone) :: [2, 3].map (fun g => (g, allNone)), []) ∧
    buildRows c6fetch true [0, 1, 2, 3] =
      (((0 : ℕ), allNone) :: (buildRows c6fetch true [1, 2, 3]).1,
       ((0 : ℕ), "HTTP_404: not found") :: (buildRows c6fetch true [1, 2, 3]).2) ∧
    buildRows c6fetch true [0, 1, 2, 3] =
      ([(0, allNone), (1, allNone), (2, allNone), (3, allNone)], [(0, "HTTP_404: not found")]) :=
  ⟨rfl, rfl,
   (build_rows_error_paths c6fetch 1 [2, 3]).2.1 rfl,
   (build_rows_error_paths c6fetch 0 [1, 2, 3]).2.2.1 ("HTTP_404: not found") rfl (by decide),
   by decide⟩

/-! ### C7: the team resolver -/

/-- **C7.** Over any search response whose candidates all carry an
identifier: the resolver returns `none` exactly when the response is
empty; when some candidate's name matches the query exactly
case-insensitively, it returns the identifier of the first such
candidate; otherwise it returns the identifier of the first candidate in
response order.  The witness checks the `["Arsenal FC", "Arsenal"]`
example: the query "Arsenal" resolves to the exact match, not to the
first entry. -/
theorem find_team_id_spec (results : List TeamItem) (team_name : String)
    (hid : ∀ it ∈ results, it.id.isSome) :
    (find_team_id results team_name = none ↔ results = [])
    ∧ (∀ (l₁ l₂ : List TeamItem) (it : TeamItem),
        results = l₁ ++ it :: l₂ → exactNameMatch team_name it = true →
        (∀ jt ∈ l₁, exactNameMatch team_name jt = false) →
        find_team_id results team_name = it.id)
    ∧ ((∀ it ∈ results, exactNameMatch team_name it = false) →
        ∀ (f : TeamItem) (l : List TeamItem), results = f :: l →
        find_team_id results team_name = f.id) := by
  refine ⟨?_, ?_, ?_⟩
  · constructor
    · intro h
      cases hres : results with
      | nil => rfl
      | cons f l =>
        exfalso
        rw [hres] at h hid
        revert h
        simp only [find_team_id]
        cases hf : (f :: l).find? (exactNameMatch team_name) with
        | none =>
          rcases Option.isSome_iff_exists.mp (hid f (List.mem_cons_self f l)) with ⟨v, hv⟩
          simp [hv]
        | some it =>
          have hmem := List.mem_of_find?_eq_some hf
          rcases Option.isSome_iff_exists.mp (hid it hmem) with ⟨v, hv⟩
          simp [hv]
    · intro h
      subst h
      rfl
  · intro l₁ l₂ it hr hit hl₁
    subst hr
    have hfind : (l₁ ++ it :: l₂).find? (exactNameMatch team_name) = some it := by
      rw [List.find?_append]
      have h1 : l₁.find? (exactNameMatch team_name) = none :=
        List.find?_eq_none.mpr (fun x hx => by simp [hl₁ x hx])
      rw [h1]
      simp [List.find?_cons, hit]
    cases l₁ with
    | nil =>
      simp only [List.nil_append] at hfind ⊢
      simp [find_team_id, hfind]
    | cons a as =>
      simp only [List.cons_append] at hfind ⊢
      simp [find_team_id, hfind]
  · intro hall f l hr
    subst hr
    have hfind : (f :: l).find? (exactNameMatch team_name) = none :=
      List.find?_eq_none.mpr (fun x hx => by simp [hall x hx])
    simp [find_team_id, hfind]

def c7results : List TeamItem := [⟨some ("Arsenal FC"), some 1⟩, ⟨some ("Arsenal"), some 2⟩]

theorem find_team_id_spec_witness :
    (∀ it ∈ c7results, it.id.isSome) ∧
    exactNameMatch ("Arsenal") ⟨some ("Arsenal"), some 2⟩ = true ∧
    (∀ jt ∈ [(⟨some ("Arsenal FC"), some 1⟩ : TeamItem)], exactNameMatch ("Arsenal") jt = false) ∧
    find_team_id c7results ("Arsenal") = some 2 ∧
    find_team_id [] ("Arsenal") = none :=
  ⟨by decide, by decide, by decide,
   (find_team_id_spec c7results ("Arsenal") (by decide)).2.1
     [⟨some ("Arsenal FC"), some 1⟩] [] ⟨some ("Arsenal"), some 2⟩ rfl (by decide) (by decide),
   ((find_team_id_spec [] ("Arsenal") (by decide)).1).mpr rfl⟩

/-! ### C8: the league-name filter of the fixture lister -/

theorem mem_insertByDate (f a : FixtureEntry) (l : List FixtureEntry) :
    a ∈ insertByDate f l ↔ a = f ∨ a ∈ l := by
  induction l with
  | nil => simp [insertByDate]
  | cons g gs ih =>
    simp only [insertByDate]
    by_cases h : sortKey f < sortKey g
    · simp [h]
    · simp only [h, if_false, List.mem_cons, ih]
      tauto

theorem mem_sortByDate (l : List FixtureEntry) (a : FixtureEntry) :
    a ∈ sortByDate l ↔ a ∈ l := by
  induction l with
  | nil => simp [sortByDate]
  | cons g gs ih =>
    show a ∈ insertByDate g (sortByDate gs) ↔ _
    rw [mem_insertByDate]
    simp [ih, eq_comm]

/-- **C8.** With a (truthy) league-name filter supplied, the fixture
lister retains exactly the fixtures whose league name contains the filter
as a case-insensitive substring.  The witness checks the substring
semantics: the filter "Premier League" retains a fixture in league
"Premier League 2". -/
theorem list_fixtures_league_filter (fixtures : List FixtureEntry) (s : String) (f : FixtureEntry)
    (hs : s ≠ "") :
    f ∈ list_fixtures_post fixtures (some s) ↔
      f ∈ fixtures ∧ strIn (lowerStr s) (lowerStr (f.leagueName.getD (""))) = true := by
  unfold list_fixtures_post
  have ht : truthyStr (some s) = true := by simp [truthyStr, hs]
  rw [ht]
  simp only [if_true, Option.getD_some]
  rw [mem_sortByDate, List.mem_filter]

def c8fix : FixtureEntry := ⟨some ("Premier League 2"), some ("2024-08-10")⟩

def c8list : List FixtureEntry := [⟨some ("La Liga"), some ("2024-08-01")⟩, c8fix]

theorem list_fixtures_league_filter_witness :
    ("Premier League" : String) ≠ "" ∧
    (c8fix ∈ list_fixtures_post c8list (some ("Premier League")) ↔
      c8fix ∈ c8list ∧
        strIn (lowerStr ("Premier League")) (lowerStr (c8fix.leagueName.getD (""))) = true) ∧
    c8fix ∈ list_fixtures_post c8list (some ("Premier League")) :=
  ⟨by decide,
   list_fixtures_league_filter c8list ("Premier League") c8fix (by decide),
   by decide⟩

/-! ### C9: the summary sheet -/

theorem count_disjoint_add (p q : ExportRow → Bool) (rows : List ExportRow)
    (hdisj : ∀ r, ¬ (p r = true ∧ q r = true)) :
    countRows p rows + countRows q rows = (rows.filter (fun r => p r || q r)).length := by
  induction rows with
  | nil => rfl
  | cons r rs ih =>
    unfold countRows at *
    rw [List.filter_cons, List.filter_cons, List.filter_cons]
    cases hp : p r
    · cases hq : q r
      · simpa using ih
      · simp only [Bool.false_eq_true, if_false, if_true, hp, hq, Bool.false_or,
          List.length_cons]
        omega
    · have hq : q r = false := by
        cases hq : q r
        · rfl
        · exact absurd ⟨hp, hq⟩ (hdisj r)
      simp only [Bool.false_eq_true, if_false, if_true, hp, hq, Bool.true_or,
        List.length_cons]
      omega

/-- **C9.** The summary sheet reports the team name, the period string
and the total match count; the wins/draws/losses block is present exactly
when some row has a non-null outcome, and then wins count the rows won
from the subject team's perspective, draws the rows with outcome D and
losses the rows lost from the subject team's perspective.  The second
conjunct checks the claim's concrete instance: Home wins twice, an Away
loss and a draw give Matches=4, Wins=2, Draws=1, Losses=1. -/
theorem export_summary_spec :
    (∀ (rows : List ExportRow) (team_name date_from date_to : String),
      export_summary rows team_name date_from date_to =
        { team := team_name
          period := date_from ++ " → " ++ date_to
          matchCount := rows.length
          wdl :=
            if rows.any (fun r => r.outcome.isSome) then
              some
                ((rows.filter (fun r =>
                    (r.outcome = some ("H") && r.teamSide = some ("Home")) ||
                      (r.outcome = some ("A") && r.teamSide = some ("Away")))).length,
                 (rows.filter (fun r => r.outcome = some ("D"))).length,
                 (rows.filter (fun r =>
                    (r.outcome = some ("A") && r.teamSide = some ("Home")) ||
                      (r.outcome = some ("H") && r.teamSide = some ("Away")))).length)
            else none })
    ∧ export_summary
        [⟨some ("H"), some ("Home")⟩, ⟨some ("H"), some ("Home")⟩,
         ⟨some ("H"), some ("Away")⟩, ⟨some ("D"), some ("Away")⟩]
        ("Arsenal") ("2024-08-01") ("2025-06-30") =
      ⟨"Arsenal", "2024-08-01 → 2025-06-30", 4, some (2, 1, 1)⟩ := by
  constructor
  · intro rows team_name date_from date_to
    unfold export_summary
    simp only [Summary.mk.injEq, true_and]
    by_cases h : rows.any (fun r => r.outcome.isSome)
    · rw [if_pos h, if_pos h]
      refine congrArg some (Prod.ext ?_ (Prod.ext rfl ?_))
      · refine count_disjoint_add _ _ rows ?_
        rintro r ⟨h1, h2⟩
        simp only [Bool.and_eq_true, decide_eq_true_eq] at h1 h2
        exact absurd (h1.1.symm.trans h2.1) (by decide)
      · refine count_disjoint_add _ _ rows ?_
        rintro r ⟨h1, h2⟩
        simp only [Bool.and_eq_true, decide_eq_true_eq] at h1 h2
        exact absurd (h1.1.symm.trans h2.1) (by decide)
    · rw [if_neg h, if_neg h]
  · decide

end FootballOdds
